import Mathlib

/-!
Verification of the message-understanding and response-routing pipeline of
`server.py`: tokenizer, disease-document index, two-tier disease matcher,
facility recommender, intent router and response composer.

The Python source is shallowly embedded below.  Strings are Lean `String`s;
Python's `str.lower`, `str.strip`, `str.title`, `str.replace` and the regex
`\w+` are modelled over ASCII (the knowledge base and all routing keywords in
the source are ASCII).  Python sets are modelled as duplicate-free lists, and
JSON values (the knowledge-base entries) as the inductive type `JVal`.
Fallible code — places where the Python raises `TypeError` / `AttributeError`
/ `KeyError` — is modelled with `Except String`.
-/

/-! ## ASCII character helpers (models of `str.lower` / `str.upper` / `\w` / whitespace) -/

/-- ASCII model of Python lower-casing of a single character
(`str.lower` maps A–Z to a–z and leaves everything else unchanged). -/
def lowerChar (c : Char) : Char :=
  if c = 'A' then 'a' else if c = 'B' then 'b' else if c = 'C' then 'c'
  else if c = 'D' then 'd' else if c = 'E' then 'e' else if c = 'F' then 'f'
  else if c = 'G' then 'g' else if c = 'H' then 'h' else if c = 'I' then 'i'
  else if c = 'J' then 'j' else if c = 'K' then 'k' else if c = 'L' then 'l'
  else if c = 'M' then 'm' else if c = 'N' then 'n' else if c = 'O' then 'o'
  else if c = 'P' then 'p' else if c = 'Q' then 'q' else if c = 'R' then 'r'
  else if c = 'S' then 's' else if c = 'T' then 't' else if c = 'U' then 'u'
  else if c = 'V' then 'v' else if c = 'W' then 'w' else if c = 'X' then 'x'
  else if c = 'Y' then 'y' else if c = 'Z' then 'z' else c

/-- ASCII model of Python upper-casing of a single character (used by `str.title`). -/
def upperChar (c : Char) : Char :=
  if c = 'a' then 'A' else if c = 'b' then 'B' else if c = 'c' then 'C'
  else if c = 'd' then 'D' else if c = 'e' then 'E' else if c = 'f' then 'F'
  else if c = 'g' then 'G' else if c = 'h' then 'H' else if c = 'i' then 'I'
  else if c = 'j' then 'J' else if c = 'k' then 'K' else if c = 'l' then 'L'
  else if c = 'm' then 'M' else if c = 'n' then 'N' else if c = 'o' then 'O'
  else if c = 'p' then 'P' else if c = 'q' then 'Q' else if c = 'r' then 'R'
  else if c = 's' then 'S' else if c = 't' then 'T' else if c = 'u' then 'U'
  else if c = 'v' then 'V' else if c = 'w' then 'W' else if c = 'x' then 'X'
  else if c = 'y' then 'Y' else if c = 'z' then 'Z' else c

/-- The characters Python's `str.strip()` removes (ASCII whitespace). -/
def isSpaceChar (c : Char) : Bool :=
  c == ' ' || c == '\t' || c == '\n' || c == '\x0d' ||
  c == Char.ofNat 11 || c == Char.ofNat 12

/-- A character matched by the regex class `\w` (ASCII model:
alphanumeric or underscore). -/
def isWordChar (c : Char) : Bool :=
  ('a' ≤ c && c ≤ 'z') || ('A' ≤ c && c ≤ 'Z') || ('0' ≤ c && c ≤ '9') || c == '_'

def lowerUppers : List Char :=
  ['A','B','C','D','E','F','G','H','I','J','K','L','M',
   'N','O','P','Q','R','S','T','U','V','W','X','Y','Z']

def lowerLowers : List Char :=
  ['a','b','c','d','e','f','g','h','i','j','k','l','m',
   'n','o','p','q','r','s','t','u','v','w','x','y','z']

set_option maxHeartbeats 1000000 in
theorem lowerChar_cases (c : Char) :
    lowerChar c = c ∨ (lowerChar c ∈ lowerLowers ∧ c ∈ lowerUppers) := by
  by_cases hA : c = 'A'
  · subst hA; right; exact ⟨by decide, by decide⟩
  by_cases hB : c = 'B'
  · subst hB; right; exact ⟨by decide, by decide⟩
  by_cases hC : c = 'C'
  · subst hC; right; exact ⟨by decide, by decide⟩
  by_cases hD : c = 'D'
  · subst hD; right; exact ⟨by decide, by decide⟩
  by_cases hE : c = 'E'
  · subst hE; right; exact ⟨by decide, by decide⟩
  by_cases hF : c = 'F'
  · subst hF; right; exact ⟨by decide, by decide⟩
  by_cases hG : c = 'G'
  · subst hG; right; exact ⟨by decide, by decide⟩
  by_cases hH : c = 'H'
  · subst hH; right; exact ⟨by decide, by decide⟩
  by_cases hI : c = 'I'
  · subst hI; right; exact ⟨by decide, by decide⟩
  by_cases hJ : c = 'J'
  · subst hJ; right; exact ⟨by decide, by decide⟩
  by_cases hK : c = 'K'
  · subst hK; right; exact ⟨by decide, by decide⟩
  by_cases hL : c = 'L'
  · subst hL; right; exact ⟨by decide, by decide⟩
  by_cases hM : c = 'M'
  · subst hM; right; exact ⟨by decide, by decide⟩
  by_cases hN : c = 'N'
  · subst hN; right; exact ⟨by decide, by decide⟩
  by_cases hO : c = 'O'
  · subst hO; right; exact ⟨by decide, by decide⟩
  by_cases hP : c = 'P'
  · subst hP; right; exact ⟨by decide, by decide⟩
  by_cases hQ : c = 'Q'
  · subst hQ; right; exact ⟨by decide, by decide⟩
  by_cases hR : c = 'R'
  · subst hR; right; exact ⟨by decide, by decide⟩
  by_cases hS : c = 'S'
  · subst hS; right; exact ⟨by decide, by decide⟩
  by_cases hT : c = 'T'
  · subst hT; right; exact ⟨by decide, by decide⟩
  by_cases hU : c = 'U'
  · subst hU; right; exact ⟨by decide, by decide⟩
  by_cases hV : c = 'V'
  · subst hV; right; exact ⟨by decide, by decide⟩
  by_cases hW : c = 'W'
  · subst hW; right; exact ⟨by decide, by decide⟩
  by_cases hX : c = 'X'
  · subst hX; right; exact ⟨by decide, by decide⟩
  by_cases hY : c = 'Y'
  · subst hY; right; exact ⟨by decide, by decide⟩
  by_cases hZ : c = 'Z'
  · subst hZ; right; exact ⟨by decide, by decide⟩
  left
  unfold lowerChar
  rw [if_neg hA, if_neg hB, if_neg hC, if_neg hD, if_neg hE, if_neg hF, if_neg hG, if_neg hH, if_neg hI, if_neg hJ, if_neg hK, if_neg hL, if_neg hM, if_neg hN, if_neg hO, if_neg hP, if_neg hQ, if_neg hR, if_neg hS, if_neg hT, if_neg hU, if_neg hV, if_neg hW, if_neg hX, if_neg hY, if_neg hZ]

theorem lowerChar_lower {d : Char} (h : d ∈ lowerLowers) : lowerChar d = d := by
  fin_cases h <;> rfl

theorem lowerChar_idem (c : Char) : lowerChar (lowerChar c) = lowerChar c := by
  rcases lowerChar_cases c with h | ⟨h, _⟩
  · rw [h, h]
  · exact lowerChar_lower h

theorem isSpaceChar_of_mem_lowers {d : Char} (h : d ∈ lowerLowers) : isSpaceChar d = false := by
  fin_cases h <;> rfl

theorem isSpaceChar_of_mem_uppers {d : Char} (h : d ∈ lowerUppers) : isSpaceChar d = false := by
  fin_cases h <;> rfl

theorem isSpaceChar_lowerChar (c : Char) : isSpaceChar (lowerChar c) = isSpaceChar c := by
  rcases lowerChar_cases c with h | ⟨h, hu⟩
  · rw [h]
  · rw [isSpaceChar_of_mem_lowers h, isSpaceChar_of_mem_uppers hu]

/-! ## String helpers: lower, strip, join, replace, title, substring test -/

/-- `text.lower()` (ASCII model). -/
def pyLower (s : String) : String := String.mk (s.data.map lowerChar)

/-- `text.strip()`: drop ASCII whitespace from both ends (on character lists). -/
def pyStripData (s : List Char) : List Char :=
  ((s.dropWhile isSpaceChar).reverse.dropWhile isSpaceChar).reverse

/-- `text.strip()`. -/
def pyStrip (s : String) : String := String.mk (pyStripData s.data)

/-- `sep.join(parts)` for Python strings. -/
def pyJoin (sep : String) : List String → String
  | [] => ""
  | [p] => p
  | p :: q :: ps => p ++ sep ++ pyJoin sep (q :: ps)

/-- `s.replace(a, b)` for single-character `a`, `b` (the only uses in the source
are `replace("_", " ")` and `replace("-", " ")`). -/
def pyReplaceChar (s : String) (a b : Char) : String :=
  String.mk (s.data.map (fun c => if c = a then b else c))

def pyTitleAux : List Char → Bool → List Char
  | [], _ => []
  | c :: cs, prevCased =>
      (if prevCased then lowerChar c else upperChar c) ::
        pyTitleAux cs (('a' ≤ c && c ≤ 'z') || ('A' ≤ c && c ≤ 'Z'))

/-- `s.title()` (ASCII model): upper-case a letter that does not follow a
letter, lower-case the rest. -/
def pyTitle (s : String) : String := String.mk (pyTitleAux s.data false)

/-- Boolean substring test on character lists, modelling Python's `needle in hay`. -/
def containsSub (hay needle : List Char) : Bool :=
  if needle.isPrefixOf hay then true
  else
    match hay with
    | [] => false
    | _ :: t => containsSub t needle

/-- `sub in hay` for Python strings. -/
def containsStr (hay sub : String) : Bool := containsSub hay.data sub.data

/-- `s.startswith(pre)` for Python strings. -/
def pyStartswith (s pre : String) : Bool := pre.data.isPrefixOf s.data

theorem containsSub_iff (hay needle : List Char) :
    containsSub hay needle = true ↔ needle <:+: hay := by
  induction hay with
  | nil =>
    rw [containsSub]
    constructor
    · intro h
      split at h
      · next hp =>
          rw [List.isPrefixOf_iff_prefix] at hp
          exact hp.isInfix
      · simp at h
    · intro h
      have hn : needle = [] := List.infix_nil.mp h
      subst hn
      simp [List.isPrefixOf]
  | cons c t ih =>
    rw [containsSub]
    split
    · next hp =>
        rw [List.isPrefixOf_iff_prefix] at hp
        simp [hp.isInfix]
    · next hp =>
        rw [List.isPrefixOf_iff_prefix] at hp
        rw [ih]
        constructor
        · intro h
          exact List.infix_cons h
        · intro h
          rcases List.infix_cons_iff.mp h with h' | h'
          · exact absurd h' hp
          · exact h'

/-! ## The stop-word set and tokenizer (`STOP_WORDS`, `_tokenize`) -/

def STOP_WORDS : List String :=
  ["a", "an", "the", "is", "are", "am", "i", "you", "he", "she", "it", "we", "they",
   "of", "for", "to", "in", "on", "and", "or", "but", "with", "at", "from",
   "this", "that", "these", "those", "about", "what", "how", "when", "why",
   "do", "does", "did", "my", "your", "his", "her", "their", "our", "have",
   "has", "had", "me", "be", "been", "was", "were"]

/-- `re.findall(r"\w+", s)`: split into maximal runs of word characters.
`acc` is the (reversed) run currently being scanned. -/
def wordRunsAux : List Char → List Char → List (List Char)
  | [], acc => if acc.isEmpty then [] else [acc.reverse]
  | c :: cs, acc =>
      if isWordChar c then wordRunsAux cs (c :: acc)
      else if acc.isEmpty then wordRunsAux cs []
      else acc.reverse :: wordRunsAux cs []

def findallWords (s : List Char) : List (List Char) := wordRunsAux s []

/-- `_tokenize(text)`: word tokens of `text.lower()`, with stop words removed. -/
def _tokenize (text : String) : List String :=
  ((findallWords (pyLower text).data).map String.mk).filter
    (fun t => !(STOP_WORDS.contains t))

/-! ## JSON values (knowledge-base entries) and Python dict helpers -/

/-- A JSON value, the shape of the entries of the loaded knowledge base `DB`. -/
inductive JVal where
  | null
  | bool (b : Bool)
  | num (n : Int)
  | str (s : String)
  | arr (elems : List JVal)
  | obj (fields : List (String × JVal))

/-- Python truthiness of a JSON value (`if not x: ...`). -/
def JVal.truthy : JVal → Bool
  | .null => false
  | .bool b => b
  | .num n => n != 0
  | .str s => !s.isEmpty
  | .arr l => !l.isEmpty
  | .obj f => !f.isEmpty

/-- `d.get(k)` on an association list representing a Python dict
(first binding of the key wins; a dict has no duplicate keys). -/
def alistGet (fields : List (String × JVal)) (k : String) : Option JVal :=
  (fields.find? (fun p => p.1 == k)).map (fun p => p.2)

/-- `v.get(k)` in Python: succeeds only when `v` is a dict; on any other value
the attribute access raises `AttributeError`. -/
def pyGet (v : JVal) (k : String) : Except String (Option JVal) :=
  match v with
  | .obj fs => .ok (alistGet fs k)
  | .null => .error "AttributeError"
  | .bool _ => .error "AttributeError"
  | .num _ => .error "AttributeError"
  | .str _ => .error "AttributeError"
  | .arr _ => .error "AttributeError"

/-! ## `build_disease_index` -/

/-- The `parts` list `build_disease_index` collects for one language block:
for each of the four content fields, a list value is flattened into `parts`,
a string value is appended, and any other (or missing) value is skipped. -/
def collectParts (gs : List (String × JVal)) : List JVal :=
  ["what", "symptoms", "prevention", "remedies"].foldl
    (fun parts field =>
      match alistGet gs field with
      | some (JVal.arr xs) => parts ++ xs
      | some (JVal.str s) => parts ++ [JVal.str s]
      | _ => parts)
    []

/-- `" ".join(parts)` demands every part be a string; a non-string element
raises `TypeError`. -/
def joinStrParts : List JVal → Except String (List String)
  | [] => .ok []
  | p :: rest =>
    match p with
    | JVal.str s => (joinStrParts rest).map (fun l => s :: l)
    | _ => .error "TypeError"

/-- The per-block step of `build_disease_index`: collect `parts`, skip the
entry when `parts` is empty, join (which may raise `TypeError`), tokenize, and
skip when no non-stopword token remains.  A non-dict language block raises
`AttributeError` at `lang_block.get(field)`. -/
def indexEntryBlock : JVal → Except String (Option (List String))
  | .obj gs =>
    let parts := collectParts gs
    if parts.isEmpty then .ok none
    else
      match joinStrParts parts with
      | .error e => .error e
      | .ok strs =>
        let tokens := _tokenize (pyJoin " " strs)
        if tokens.isEmpty then .ok none else .ok (some tokens.dedup)
  | .null => .error "AttributeError"
  | .bool _ => .error "AttributeError"
  | .num _ => .error "AttributeError"
  | .str _ => .error "AttributeError"
  | .arr _ => .error "AttributeError"

/-- `lang_block = disease_data.get("en"); if not lang_block: continue`. -/
def indexEntryEn : Option JVal → Except String (Option (List String))
  | none => .ok none
  | some lb => if !lb.truthy then .ok none else indexEntryBlock lb

/-- Indexing of a single knowledge-base entry (the body of the `for` loop of
`build_disease_index`): `.ok none` means the entry is skipped, `.ok (some ts)`
stores term set `ts` under the entry's key, `.error` models a raised exception
(`.get` on a non-dict value, or `" ".join` over a non-string part). -/
def indexEntry (data : JVal) : Except String (Option (List String)) :=
  match data with
  | .obj fs => indexEntryEn (alistGet fs "en")
  | .null => .error "AttributeError"
  | .bool _ => .error "AttributeError"
  | .num _ => .error "AttributeError"
  | .str _ => .error "AttributeError"
  | .arr _ => .error "AttributeError"

def buildAux : List (String × JVal) → Except String (List (String × List String))
  | [] => .ok []
  | (k, v) :: rest =>
    match indexEntry v with
    | .error e => .error e
    | .ok none => buildAux rest
    | .ok (some ts) =>
      match buildAux rest with
      | .error e => .error e
      | .ok idx => .ok ((k, ts) :: idx)

/-- `build_disease_index()`: the mapping `DISEASE_DOCS` from disease key to its
set of non-stopword terms, or the exception the build raises. -/
def build_disease_index (db : List (String × JVal)) :
    Except String (List (String × List String)) :=
  if db.isEmpty then .ok [] else buildAux db

/-! ## `nlp_guess_disease` -/

/-- `len(tokens & doc_tokens)` for duplicate-free token lists. -/
def overlapCount (tokens terms : List String) : Nat :=
  (tokens.filter (fun w => terms.contains w)).length

/-- The best-key/best-overlap accumulation loop of `nlp_guess_disease`
(update on strictly larger overlap only). -/
def guessLoop (tokens : List String) :
    List (String × List String) → Option String → Nat → Option String × Nat
  | [], bk, bo => (bk, bo)
  | (k, ds) :: rest, bk, bo =>
    if bo < overlapCount tokens ds then
      guessLoop tokens rest (some k) (overlapCount tokens ds)
    else guessLoop tokens rest bk bo

/-- `nlp_guess_disease(text)` over index `docs` (the global `DISEASE_DOCS`). -/
def nlp_guess_disease (docs : List (String × List String)) (text : String) :
    Option String :=
  if docs.isEmpty then none
  else
    let tokens := (_tokenize text).dedup
    if tokens.isEmpty then none
    else
      let best := guessLoop tokens docs none 0
      if best.2 < 3 then none else best.1

/-! ## `HOSPITALS_KOCHI` and `get_hospitals_for_disease` -/

structure Hospital where
  name : String
  address : String
  phone : String
  url : String
  tags : List String
deriving DecidableEq

def HOSPITALS_KOCHI : List Hospital :=
  [{ name := "Aster Medcity",
     address := "Kuttisahib Road, Cheranelloor, Kochi, Kerala 682027",
     phone := "+91-484-6699999",
     url := "https://www.asterhospitals.in/hospitals/aster-medcity-kochi",
     tags := ["multispecialty", "tertiary", "critical-care", "surgery"] },
   { name := "Amrita Institute of Medical Sciences (AIMS) - Kochi",
     address := "Amrita Lane, Elamakkara P.O., Kochi 682026",
     phone := "+91-484-2802020",
     url := "https://www.amritahospitals.org/kochi",
     tags := ["multispecialty", "teaching-hospital", "critical-care", "organ-transplant"] },
   { name := "VPS Lakeshore Hospital",
     address := "Nettoor/Maradu, Ernakulam, Kochi 682040",
     phone := "+91-484-2701032",
     url := "https://www.vpslakeshorehospital.com",
     tags := ["multispecialty", "cardiac", "critical-care", "emergency"] },
   { name := "Rajagiri Hospital (Aluva)",
     address := "Chunangamvely Road, GTN Junction, Aluva, Kochi",
     phone := "+91-484-2905100",
     url := "https://www.rajagirihospital.com",
     tags := ["multispecialty", "nephrology", "transplant", "critical-care"] },
   { name := "Apollo Adlux Hospital",
     address := "NH 66, Kochi",
     phone := "+91-484-2399000",
     url := "https://www.apollohospitals.com",
     tags := ["multispecialty", "critical-care", "emergency"] },
   { name := "Lisie Hospital",
     address := "Nadama, Kochi",
     phone := "+91-484-2604626",
     url := "https://www.lisiehospital.org",
     tags := ["multispecialty", "cardiology", "surgery"] }]

/-- The `keyword_tag_map` of `get_hospitals_for_disease`, in source order. -/
def keyword_tag_map : List (String × List String) :=
  [("fever", ["emergency", "critical-care", "multispecialty"]),
   ("dengue", ["emergency", "multispecialty"]),
   ("malaria", ["emergency", "multispecialty"]),
   ("covid", ["emergency", "critical-care"]),
   ("cardiac", ["cardiac", "multispecialty"]),
   ("heart", ["cardiac"]),
   ("kidney", ["nephrology", "multispecialty", "transplant"]),
   ("cancer", ["oncology", "multispecialty"]),
   ("pregnancy", ["maternity", "multispecialty"])]

/-- `matched_tags.update(tags)`: set union keeping first-seen order,
on duplicate-free lists. -/
def listUnion (acc tags : List String) : List String :=
  tags.foldl (fun a t => if a.contains t then a else a ++ [t]) acc

/-- The `matched_tags` set: union of the tag sets of every keyword occurring
as a substring of the lower-cased disease key. -/
def matched_tags (disease_key : String) : List String :=
  keyword_tag_map.foldl
    (fun acc p => if containsStr (pyLower disease_key) p.1 then listUnion acc p.2 else acc)
    []

/-- A hospital's score: tag-overlap count, plus a +1 bonus for multispecialty
hospitals when no keyword matched at all. -/
def score_hospital (matched : List String) (h : Hospital) : Nat :=
  (matched.filter (fun t => h.tags.contains t)).length +
    (if matched.isEmpty && h.tags.contains "multispecialty" then 1 else 0)

/-- One step of a stable descending insertion sort on `(score, hospital)`
pairs, modelling Python's stable `scored.sort(key=lambda x: x[0], reverse=True)`:
an element is inserted after every earlier element with an equal or larger score. -/
def insertScored (x : Nat × Hospital) : List (Nat × Hospital) → List (Nat × Hospital)
  | [] => [x]
  | y :: ys => if x.1 ≤ y.1 then y :: insertScored x ys else x :: y :: ys

def sortScored (l : List (Nat × Hospital)) : List (Nat × Hospital) :=
  l.foldl (fun acc x => insertScored x acc) []

/-- `get_hospitals_for_disease(disease_key, limit)`. -/
def get_hospitals_for_disease (disease_key : String) (limit : Nat) : List Hospital :=
  if disease_key = "" then []
  else
    let matched := matched_tags disease_key
    let scored := HOSPITALS_KOCHI.map (fun h => (score_hospital matched h, h))
    let sorted := sortScored scored
    ((sorted.filter (fun p => decide (0 ≤ p.1))).map (fun p => p.2)).take limit

/-! ## Language data, greeting and fallback texts -/

def GREET_KEYWORDS_en : List String := ["hi", "hello", "hey", "hai"]

def GREET_MESSAGE_en : String :=
  "👋 Hey — I\x27m *WellnessHelp*, your friendly WhatsApp health assistant!\n\n" ++
  "Tell me your symptoms (e.g., \"fever and body ache\") or ask about a disease like \"dengue\".\n" ++
  "I can give: symptoms, prevention, remedies, vaccination info, and local hospital suggestions in Kochi."

def FALLBACK_MESSAGE_en : String :=
  "😕 I couldn\x27t find an exact answer for that.\n\n" ++
  "Try asking about:\n" ++
  "• Dengue symptoms\n" ++
  "• Malaria prevention\n" ++
  "• Vaccination schedule\n\n" ++
  "If this is an emergency, please contact local emergency services or visit the nearest hospital right away."

def THANKS : List String := ["thank", "thanks", "thank you", "thx", "ty"]

def THANKS_ANSWER : String :=
  "😊 You\x27re welcome! Glad I could help. Anything else I can do?"

/-! ## `search_db` -/

/-- The explicit-name test of `search_db`: the key itself, or the key with
underscores / hyphens replaced by spaces, occurs as a substring of the
lower-cased query. -/
def explicit_variants_match (d q : String) : Bool :=
  let d_low := pyLower d
  containsStr q d_low || containsStr q (pyReplaceChar d_low '_' ' ') ||
    containsStr q (pyReplaceChar d_low '-' ' ')

/-- The direct-disease-name loop of `search_db`: first key in iteration order
whose variant set hits the query. -/
def find_explicit (db : List (String × JVal)) (q : String) : Option (String × JVal) :=
  db.find? (fun p => explicit_variants_match p.1 q)

/-- Disease resolution of `search_db` (lines 244–261): explicit key match
first; the NLP guess is consulted only when no key matched.  The Bool is
`matched_by_key`. -/
def resolve_disease (db : List (String × JVal)) (docs : List (String × List String))
    (q q_original : String) : Option (String × Bool) :=
  match find_explicit db q with
  | some p => some (p.1, true)
  | none => (nlp_guess_disease docs q_original).map (fun k => (k, false))

/-- `data is None` in Python: a missing key and a JSON null both read as None. -/
def pyIsNone : Option JVal → Bool
  | none => true
  | some .null => true
  | some _ => false

/-- `str(x)` as used by the f-string in the non-list branch of `search_db`. -/
def fmtData : Option JVal → String
  | none => "None"
  | some .null => "None"
  | some (.str s) => s
  | some (.num n) => toString n
  | some (.bool true) => "True"
  | some (.bool false) => "False"
  | some (.arr _) => "[...]"
  | some (.obj _) => "\x7b...\x7d"

/-- `"• " + item` for every list element; a non-string element raises `TypeError`. -/
def bulletLines : List JVal → Except String (List String)
  | [] => .ok []
  | p :: rest =>
    match p with
    | JVal.str s => (bulletLines rest).map (fun l => ("• " ++ s) :: l)
    | _ => .error "TypeError"

/-- The category-keyword dispatch of `search_db`. -/
def pickCategory (q : String) : String :=
  if ["symptom", "symptoms", "signs"].any (fun w => containsStr q w) then "symptoms"
  else if ["prevent", "prevention", "avoid"].any (fun w => containsStr q w) then "prevention"
  else if ["treat", "treatment", "remedy", "remedies", "cure"].any (fun w => containsStr q w) then
    "remedies"
  else "what"

def title_map : List (String × String) :=
  [("what", "About"), ("symptoms", "Symptoms"),
   ("prevention", "Prevention"), ("remedies", "Remedies")]

/-- `s.capitalize()` (ASCII model). -/
def pyCapitalize (s : String) : String :=
  String.mk (match s.data with
    | [] => []
    | c :: cs => upperChar c :: cs.map lowerChar)

/-- The display title of a disease key. -/
def diseaseTitle (disease_key : String) : String :=
  pyTitle (pyReplaceChar (pyReplaceChar disease_key '_' ' ') '-' ' ')

/-- `search_db(text, lang)` over knowledge base `db` and index `docs`:
`.ok none` means no answer, `.ok (some reply)` an answer string, `.error` a
raised exception. -/
def search_db (db : List (String × JVal)) (docs : List (String × List String))
    (text lang : String) : Except String (Option String) :=
  if db.isEmpty ∨ text = "" then .ok none
  else
    let q_original := text
    let q := pyStrip (pyLower text)
    match resolve_disease db docs q q_original with
    | none => .ok none
    | some (disease_key, matched_by_key) =>
      match alistGet db disease_key with
      | none => .error "KeyError"
      | some entry =>
        match pyGet entry "en" with
        | .error e => .error e
        | .ok none => .ok none
        | .ok (some lb) =>
          if !lb.truthy then .ok none
          else
            let disease_title := diseaseTitle disease_key
            if !matched_by_key then
              .ok (some ("🤖 It looks like your symptoms match *" ++ disease_title ++ "*.\n" ++
                "⚠️ This is only an initial guess — please consult a doctor if you feel unwell.\n" ++
                "I can also suggest nearby hospitals in Kochi if you\x27d like."))
            else
              match lb with
              | .obj gs =>
                let category := pickCategory q
                let dc :=
                  if pyIsNone (alistGet gs category) then (alistGet gs "what", "what")
                  else (alistGet gs category, category)
                let heading :=
                  ((title_map.find? (fun p => p.1 == dc.2)).map (fun p => p.2)).getD
                    (pyCapitalize dc.2)
                match dc.1 with
                | some (JVal.arr items) =>
                  match bulletLines items with
                  | .error e => .error e
                  | .ok lines =>
                    .ok (some ("💡 *" ++ disease_title ++ " – " ++ heading ++ "*\n" ++
                      pyJoin "\n" lines))
                | _ =>
                  .ok (some ("💡 *" ++ disease_title ++ " – " ++ heading ++ "*\n" ++
                    fmtData dc.1))
              | _ => .error "AttributeError"

/-! ## `process_message` -/

/-- The read-only context `process_message` consults: the loaded knowledge
base `DB`, the index `DISEASE_DOCS` built from it at startup, and the three
external content providers (vaccination schedules, preventive-health modules,
legacy multi-language disease lookup), which the spec treats as opaque
collaborators. -/
structure Ctx where
  db : List (String × JVal)
  docs : List (String × List String)
  vaccination_schedules : JVal
  preventive_modules : List (String × String)
  find_disease : String → Option String

/-- The `answer` field of a routing result: either a plain string or the
nested payload dict `{"answer": ..., "hospitals"?: ...}`. -/
inductive PAnswer where
  | text (s : String)
  | payload (answer : String) (hospitals : Option (List Hospital))

/-- The structured result of `process_message`. -/
structure PMResult where
  rtype : String
  answer : PAnswer
  extra : Option JVal

/-- One bulleted hospital suggestion line. -/
def hospLine (h : Hospital) : String :=
  "• " ++ h.name ++ " — " ++ h.address ++ " (☎ " ++ h.phone ++ ")"

def HOSPITAL_BLOCK_HEADER : String :=
  "\n\n🏥 *Nearby hospitals in Kochi you can consider:*\n"

/-- `process_message(text, lang)`: the intent router.  The `lang` argument is
unconditionally overwritten with "en" before any routing happens. -/
def process_message (ctx : Ctx) (text0 lang : String) : Except String PMResult :=
  let text := pyStrip text0
  let lower := pyLower text
  if text = "" then .ok ⟨"fallback", .text GREET_MESSAGE_en, none⟩
  else if GREET_KEYWORDS_en.any (fun g => lower == g || pyStartswith lower (g ++ " ")) then
    .ok ⟨"greeting", .text GREET_MESSAGE_en, none⟩
  else if THANKS.any (fun t => containsStr lower t) then
    .ok ⟨"thanks", .text THANKS_ANSWER, none⟩
  else
    match search_db ctx.db ctx.docs text "en" with
    | .error e => .error e
    | .ok (some db_answer) =>
      let disease_key :=
        match ctx.db.find? (fun p => explicit_variants_match p.1 lower) with
        | some p => some p.1
        | none => nlp_guess_disease ctx.docs text
      match disease_key with
      | some dk =>
        if dk = "" then .ok ⟨"db", .payload db_answer none, none⟩
        else
          let hospitals := get_hospitals_for_disease dk 3
          let hosp_block := pyJoin "\n" (hospitals.map hospLine)
          .ok ⟨"db", .payload (db_answer ++ HOSPITAL_BLOCK_HEADER ++ hosp_block)
            (some hospitals), none⟩
      | none => .ok ⟨"db", .payload db_answer none, none⟩
    | .ok none =>
      if ["vaccine", "vaccination", "immunization"].any (fun w => containsStr lower w) then
        .ok ⟨"vaccination", .text "💉 Here is the vaccination schedule (infant, child, adult).",
          some ctx.vaccination_schedules⟩
      else
        match ctx.preventive_modules.find? (fun p => containsStr lower p.1) with
        | some p => .ok ⟨"preventive", .text p.2, none⟩
        | none =>
          match ctx.find_disease text with
          | some disease_info =>
            if disease_info = "" then .ok ⟨"fallback", .text FALLBACK_MESSAGE_en, none⟩
            else
              let guessed := nlp_guess_disease ctx.docs text
              let hospitals :=
                match guessed with
                | some g => get_hospitals_for_disease g 3
                | none => []
              let answer_text := "🤝 " ++ disease_info
              if hospitals.isEmpty then .ok ⟨"disease", .payload answer_text none, none⟩
              else
                .ok ⟨"disease",
                  .payload (answer_text ++ HOSPITAL_BLOCK_HEADER ++
                    pyJoin "\n" (hospitals.map hospLine)) (some hospitals), none⟩
          | none => .ok ⟨"fallback", .text FALLBACK_MESSAGE_en, none⟩

/-! ## Claim C10: the result is independent of the `lang` argument -/

/-- C10: `process_message` is independent of its `lang` argument: the language
is unconditionally forced to "en" before any routing, so any two language
values give identical results. -/
theorem claim_C10 (ctx : Ctx) (text lang1 lang2 : String) :
    process_message ctx text lang1 = process_message ctx text lang2 := rfl

/-! ## Claim C1: empty / whitespace-only input -/

/-- A context with an empty knowledge base and trivial providers. -/
def emptyCtx : Ctx := ⟨[], [], JVal.null, [], fun _ => none⟩

/-- C1 counterexample: on the empty input the router returns the result
tagged "fallback" (which carries the greeting text), not the Greeting
intent's tag "greeting"; the claim that `process` returns the Greeting
intent is false. -/
theorem claim_C1_counterexample :
    process_message emptyCtx "" "en" =
      Except.ok ⟨"fallback", PAnswer.text GREET_MESSAGE_en, none⟩ ∧
    "fallback" ≠ "greeting" :=
  ⟨rfl, by decide⟩

/-- C1 amended: for every input that is empty or consists only of whitespace,
`process_message` returns the fallback-typed result carrying the greeting
text (not the Greeting intent). -/
theorem claim_C1_amended (ctx : Ctx) (text lang : String) (h : pyStrip text = "") :
    process_message ctx text lang =
      Except.ok ⟨"fallback", PAnswer.text GREET_MESSAGE_en, none⟩ := by
  unfold process_message
  rw [h]
  rfl

/-- Witness for the amended C1 at the concrete whitespace-only input `"  "`. -/
theorem claim_C1_witness :
    pyStrip "  " = "" ∧
      process_message emptyCtx "  " "en" =
        Except.ok ⟨"fallback", PAnswer.text GREET_MESSAGE_en, none⟩ :=
  ⟨rfl, claim_C1_amended emptyCtx "  " "en" rfl⟩

/-! ## Claim C3: characterization of `nlp_guess_disease` -/

/-- The largest token-overlap count over all indexed identifiers. -/
def maxOverlap (docs : List (String × List String)) (tokens : List String) : Nat :=
  (docs.map (fun p => overlapCount tokens p.2)).foldr max 0

/-- Modelled from the spec: guessed matching computes each identifier's
overlap with the input's token set, returns the earliest identifier attaining
the strictly largest overlap, and no match when that largest overlap is
below 3. -/
def guess_spec (docs : List (String × List String)) (text : String) : Option String :=
  let tokens := (_tokenize text).dedup
  let m := maxOverlap docs tokens
  if m < 3 then none
  else (docs.find? (fun p => overlapCount tokens p.2 == m)).map (fun p => p.1)

theorem maxOverlap_cons (k : String) (ds : List String) (docs : List (String × List String))
    (tokens : List String) :
    maxOverlap ((k, ds) :: docs) tokens =
      max (overlapCount tokens ds) (maxOverlap docs tokens) := rfl

theorem maxOverlap_nil_tokens (l : List (String × List String)) : maxOverlap l [] = 0 := by
  induction l with
  | nil => rfl
  | cons p rest ih =>
    obtain ⟨k, ds⟩ := p
    rw [maxOverlap_cons, ih]
    rfl

theorem guessLoop_snd (tokens : List String) (docs : List (String × List String))
    (bk : Option String) (bo : Nat) :
    (guessLoop tokens docs bk bo).2 = max bo (maxOverlap docs tokens) := by
  induction docs generalizing bk bo with
  | nil => simp [guessLoop, maxOverlap]
  | cons p rest ih =>
    obtain ⟨k, ds⟩ := p
    rw [maxOverlap_cons]
    rw [guessLoop]
    split
    · next hlt => rw [ih]; omega
    · next hge => rw [ih]; omega

theorem guessLoop_of_le (tokens : List String) (docs : List (String × List String))
    (bk : Option String) (bo : Nat) (h : maxOverlap docs tokens ≤ bo) :
    guessLoop tokens docs bk bo = (bk, bo) := by
  induction docs generalizing bk bo with
  | nil => rfl
  | cons p rest ih =>
    obtain ⟨k, ds⟩ := p
    rw [maxOverlap_cons] at h
    rw [guessLoop]
    rw [if_neg (by omega)]
    exact ih bk bo (by omega)

theorem guessLoop_of_lt (tokens : List String) (docs : List (String × List String))
    (bo : Nat) (h : bo < maxOverlap docs tokens) (bk : Option String) :
    ∃ p, docs.find? (fun p => overlapCount tokens p.2 == maxOverlap docs tokens) = some p ∧
      guessLoop tokens docs bk bo = (some p.1, maxOverlap docs tokens) := by
  induction docs generalizing bk bo with
  | nil => simp [maxOverlap] at h
  | cons hd rest ih =>
    obtain ⟨k, ds⟩ := hd
    rw [maxOverlap_cons] at h ⊢
    by_cases hM : maxOverlap rest tokens ≤ overlapCount tokens ds
    · have hmax : max (overlapCount tokens ds) (maxOverlap rest tokens) = overlapCount tokens ds :=
        by omega
      rw [hmax] at h ⊢
      refine ⟨(k, ds), ?_, ?_⟩
      · rw [List.find?_cons_of_pos]
        simp
      · rw [guessLoop, if_pos h]
        rw [guessLoop_of_le tokens rest (some k) (overlapCount tokens ds) hM]
    · have hmax : max (overlapCount tokens ds) (maxOverlap rest tokens) = maxOverlap rest tokens :=
        by omega
      rw [hmax] at h ⊢
      have hne : (overlapCount tokens ds == maxOverlap rest tokens) = false := by
        simp only [beq_eq_false_iff_ne, ne_eq]
        omega
      rw [List.find?_cons_of_neg _ (by simp [hne])]
      rw [guessLoop]
      split
      · next hlt =>
        exact ih (overlapCount tokens ds) (by omega) (some k)
      · next hge =>
        exact ih bo h bk

/-- C3: `nlp_guess_disease` computes, for each indexed identifier, the size of
the intersection of the input's token set with that identifier's term set,
returns the earliest-iterated identifier attaining the strictly largest
overlap, and returns no match whenever that largest overlap is below 3 —
i.e. it coincides with the spec-level description `guess_spec`. -/
theorem claim_C3 (docs : List (String × List String)) (text : String) :
    nlp_guess_disease docs text = guess_spec docs text := by
  simp only [nlp_guess_disease, guess_spec]
  by_cases hd : docs.isEmpty
  · rw [List.isEmpty_iff] at hd
    subst hd
    simp [maxOverlap]
  · rw [if_neg (by simp [hd])]
    by_cases ht : ((_tokenize text).dedup).isEmpty
    · rw [if_pos ht]
      rw [List.isEmpty_iff] at ht
      simp [ht, maxOverlap_nil_tokens]
    · rw [if_neg (by simp [ht])]
      have hsnd := guessLoop_snd ((_tokenize text).dedup) docs none 0
      rw [Nat.zero_max] at hsnd
      by_cases hM : maxOverlap docs ((_tokenize text).dedup) < 3
      · rw [if_pos (by rw [hsnd]; exact hM), if_pos hM]
      · obtain ⟨p, hfind, heq⟩ :=
          guessLoop_of_lt ((_tokenize text).dedup) docs 0 (by omega) none
        rw [heq]
        dsimp only
        rw [if_neg (by simpa using hM), if_neg hM, hfind]
        rfl

/-! ## Claim C4: explicit matching pre-empts guessing -/

/-- C4: when some disease identifier matches explicitly — here `d`, the first
key in knowledge-base iteration order whose variant set hits the query — the
matcher resolves to that explicit match (`matched_by_key = true`); the result
does not depend on the guess index `docs`, so the guessed-match path is never
attempted. -/
theorem claim_C4 (docs : List (String × List String)) (q q_original : String)
    (pre post : List (String × JVal)) (d : String) (v : JVal)
    (hd : explicit_variants_match d q = true)
    (hpre : ∀ p ∈ pre, explicit_variants_match p.1 q = false) :
    resolve_disease (pre ++ (d, v) :: post) docs q q_original = some (d, true) := by
  unfold resolve_disease find_explicit
  rw [List.find?_append]
  have h1 : List.find? (fun p => explicit_variants_match p.1 q) pre = none :=
    List.find?_eq_none.mpr (fun x hx => by simp [hpre x hx])
  rw [h1, List.find?_cons_of_pos _ (by simpa using hd)]
  rfl

/-- Witness for C4: the key "flu" does not match the query, "dengue" does;
the resolution returns ("dengue", explicit) for an arbitrary guess index. -/
theorem claim_C4_witness :
    explicit_variants_match "dengue" "i think i have dengue now" = true ∧
    (∀ p ∈ [("flu", JVal.null)], explicit_variants_match p.1 "i think i have dengue now" = false) ∧
    resolve_disease ([("flu", JVal.null)] ++ ("dengue", JVal.null) :: [])
      [("flu", ["cough", "cold", "fever"])] "i think i have dengue now" "i think i have dengue now" =
      some ("dengue", true) :=
  ⟨by decide, by decide,
    claim_C4 [("flu", ["cough", "cold", "fever"])] "i think i have dengue now"
      "i think i have dengue now" [("flu", JVal.null)] [] "dengue" JVal.null
      (by decide) (by decide)⟩

/-! ## Claim C8: malformed entries and the index build -/

/-- A knowledge base whose first entry has a list-valued content field whose
element is a number rather than a string, followed by a perfectly well-formed
entry. -/
def malformedDb : List (String × JVal) :=
  [("flu", JVal.obj [("en", JVal.obj [("what", JVal.arr [JVal.num 1])])]),
   ("dengue", JVal.obj [("en", JVal.obj [("what", JVal.str "mosquito borne viral infection")])])]

/-- C8: on `malformedDb` the index build does not skip the bad `flu` entry —
`" ".join(parts)` raises `TypeError` and the whole build fails, so the
well-formed `dengue` entry is not indexed either. -/
theorem claim_C8_build_raises :
    build_disease_index malformedDb = Except.error "TypeError" := rfl

/-! ## Claim C5: the index invariant -/

/-- The string elements of a `parts` list: on any entry the build processes
without raising, this is the whole `parts` list. -/
def strParts : List JVal → List String
  | [] => []
  | p :: rest =>
    match p with
    | JVal.str s => s :: strParts rest
    | _ => strParts rest

/-- The content-field concatenation of a language block (empty for a
non-dict block). -/
def entry_doc_block : JVal → String
  | .obj gs => pyJoin " " (strParts (collectParts gs))
  | .null => ""
  | .bool _ => ""
  | .num _ => ""
  | .str _ => ""
  | .arr _ => ""

/-- The content-field concatenation under the optional language block. -/
def entry_doc_en : Option JVal → String
  | none => ""
  | some lb => if lb.truthy then entry_doc_block lb else ""

/-- The concatenation of one entry's content fields, the document
`build_disease_index` tokenizes (empty when there is no usable language
block). -/
def entry_doc (v : JVal) : String :=
  match v with
  | .obj fs => entry_doc_en (alistGet fs "en")
  | .null => ""
  | .bool _ => ""
  | .num _ => ""
  | .str _ => ""
  | .arr _ => ""

/-- The non-stopword term list of one entry's concatenated content fields. -/
def entry_terms (v : JVal) : List String := _tokenize (entry_doc v)

theorem joinStrParts_cons_str (s : String) (rest : List JVal) :
    joinStrParts (JVal.str s :: rest) = (joinStrParts rest).map (fun l => s :: l) := rfl

theorem joinStrParts_cons_notstr (p : JVal) (rest : List JVal)
    (hp : ∀ s, p ≠ JVal.str s) :
    joinStrParts (p :: rest) = Except.error "TypeError" := by
  match p with
  | JVal.str s => exact absurd rfl (hp s)
  | JVal.null => rfl
  | JVal.bool _ => rfl
  | JVal.num _ => rfl
  | JVal.arr _ => rfl
  | JVal.obj _ => rfl

theorem strParts_cons_str (s : String) (rest : List JVal) :
    strParts (JVal.str s :: rest) = s :: strParts rest := rfl

theorem joinStrParts_ok {parts : List JVal} {strs : List String}
    (h : joinStrParts parts = Except.ok strs) : strs = strParts parts := by
  induction parts generalizing strs with
  | nil =>
    injection h with h'
    simp [strParts, h'.symm]
  | cons hd rest ih =>
    match hd with
    | JVal.str s =>
      rw [joinStrParts_cons_str] at h
      cases hj : joinStrParts rest with
      | error e => rw [hj] at h; simp [Except.map] at h
      | ok l =>
        rw [hj] at h
        simp only [Except.map] at h
        injection h with h'
        rw [strParts_cons_str, ← ih hj, h'.symm]
    | JVal.null | JVal.bool _ | JVal.num _ | JVal.arr _ | JVal.obj _ =>
      rw [joinStrParts_cons_notstr _ _ (by intro s hs; cases hs)] at h
      exact Except.noConfusion h

theorem tokenize_empty : _tokenize "" = [] := rfl

theorem indexEntryBlock_ok {lb : JVal} {r : Option (List String)}
    (h : indexEntryBlock lb = Except.ok r) :
    r = if _tokenize (entry_doc_block lb) = [] then none
        else some ((_tokenize (entry_doc_block lb)).dedup) := by
  match lb with
  | .null | .bool _ | .num _ | .str _ | .arr _ =>
    rw [indexEntryBlock] at h
    exact Except.noConfusion h
  | .obj gs =>
    rw [indexEntryBlock] at h
    rw [entry_doc_block]
    by_cases hp : (collectParts gs).isEmpty
    · rw [if_pos hp] at h
      injection h with h'
      rw [List.isEmpty_iff] at hp
      rw [hp]
      rw [show strParts [] = [] from rfl, show pyJoin " " [] = "" from rfl,
        if_pos tokenize_empty, h'.symm]
    · rw [if_neg hp] at h
      cases hj : joinStrParts (collectParts gs) with
      | error e => rw [hj] at h; exact Except.noConfusion h
      | ok strs =>
        rw [hj] at h
        rw [joinStrParts_ok hj] at h
        dsimp only at h
        by_cases htk : (_tokenize (pyJoin " " (strParts (collectParts gs)))).isEmpty
        · rw [if_pos htk] at h
          injection h with h'
          rw [List.isEmpty_iff] at htk
          rw [if_pos htk, h'.symm]
        · rw [if_neg htk] at h
          injection h with h'
          rw [List.isEmpty_iff] at htk
          rw [if_neg htk, h'.symm]

theorem indexEntryEn_ok {o : Option JVal} {r : Option (List String)}
    (h : indexEntryEn o = Except.ok r) :
    r = if _tokenize (entry_doc_en o) = [] then none
        else some ((_tokenize (entry_doc_en o)).dedup) := by
  match o with
  | none =>
    injection h with h'
    rw [entry_doc_en, if_pos tokenize_empty, h'.symm]
  | some lb =>
    rw [indexEntryEn] at h
    rw [entry_doc_en]
    by_cases htr : lb.truthy
    · rw [if_neg (by simp [htr])] at h
      rw [if_pos htr]
      exact indexEntryBlock_ok h
    · rw [if_pos (by simp [htr])] at h
      injection h with h'
      rw [if_neg htr, if_pos tokenize_empty, h'.symm]

theorem indexEntry_ok {v : JVal} {r : Option (List String)}
    (h : indexEntry v = Except.ok r) :
    r = if entry_terms v = [] then none else some ((entry_terms v).dedup) := by
  match v with
  | .null | .bool _ | .num _ | .str _ | .arr _ =>
    rw [indexEntry] at h
    exact Except.noConfusion h
  | .obj fs =>
    rw [indexEntry] at h
    rw [entry_terms, entry_doc]
    exact indexEntryEn_ok h

theorem alistGet_cons_self (k : String) (v : JVal) (rest : List (String × JVal)) :
    alistGet ((k, v) :: rest) k = some v := by
  unfold alistGet
  rw [List.find?_cons_of_pos _ (by simp)]
  rfl

theorem alistGet_cons_ne {k k0 : String} (hne : k ≠ k0) (v : JVal)
    (rest : List (String × JVal)) :
    alistGet ((k0, v) :: rest) k = alistGet rest k := by
  unfold alistGet
  rw [List.find?_cons_of_neg _ (by simp [Ne.symm hne])]

theorem buildAux_keys {db : List (String × JVal)} {idx : List (String × List String)}
    (h : buildAux db = Except.ok idx) : ∀ q ∈ idx, q.1 ∈ db.map Prod.fst := by
  induction db generalizing idx with
  | nil =>
    injection h with h'
    subst h'
    simp
  | cons p rest ih =>
    obtain ⟨k, v⟩ := p
    rw [buildAux] at h
    cases hie : indexEntry v with
    | error e => rw [hie] at h; simp at h
    | ok ro =>
      rw [hie] at h
      cases ro with
      | none =>
        intro q hq
        simp only [List.map_cons, List.mem_cons]
        exact Or.inr (ih h q hq)
      | some ts =>
        cases hb : buildAux rest with
        | error e => rw [hb] at h; simp at h
        | ok idxr =>
          rw [hb] at h
          injection h with h'
          subst h'
          intro q hq
          simp only [List.map_cons, List.mem_cons]
          rcases List.mem_cons.mp hq with rfl | hq'
          · exact Or.inl rfl
          · exact Or.inr (ih hb q hq')

theorem buildAux_mem_iff {db : List (String × JVal)} {idx : List (String × List String)}
    (h : buildAux db = Except.ok idx) (hnd : (db.map Prod.fst).Nodup) (k : String) :
    (∃ ts, (k, ts) ∈ idx) ↔ ∃ v, alistGet db k = some v ∧ entry_terms v ≠ [] := by
  induction db generalizing idx with
  | nil =>
    injection h with h'
    subst h'
    simp [alistGet]
  | cons p rest ih =>
    obtain ⟨k0, v0⟩ := p
    rw [buildAux] at h
    rw [List.map_cons, List.nodup_cons] at hnd
    obtain ⟨hk0, hnd'⟩ := hnd
    cases hie : indexEntry v0 with
    | error e => rw [hie] at h; simp at h
    | ok ro =>
      rw [hie] at h
      have hro := indexEntry_ok hie
      by_cases hk : k = k0
      · subst hk
        rw [alistGet_cons_self]
        cases ro with
        | none =>
          constructor
          · rintro ⟨ts, hts⟩
            exact absurd (buildAux_keys h (k, ts) hts) hk0
          · rintro ⟨v, hv, hterms⟩
            injection hv with hv'
            subst hv'
            rw [if_neg hterms] at hro
            simp at hro
        | some ts =>
          cases hb : buildAux rest with
          | error e => rw [hb] at h; simp at h
          | ok idxr =>
            rw [hb] at h
            injection h with h'
            subst h'
            constructor
            · intro _
              refine ⟨v0, rfl, ?_⟩
              intro hterms
              rw [if_pos hterms] at hro
              simp at hro
            · intro _
              exact ⟨ts, List.mem_cons_self _ _⟩
      · rw [alistGet_cons_ne hk]
        cases ro with
        | none => exact ih h hnd'
        | some ts =>
          cases hb : buildAux rest with
          | error e => rw [hb] at h; simp at h
          | ok idxr =>
            rw [hb] at h
            injection h with h'
            subst h'
            rw [← ih hb hnd']
            constructor
            · rintro ⟨ts', hts'⟩
              rcases List.mem_cons.mp hts' with heq | hmem
              · exact absurd (congrArg Prod.fst heq) (by simpa using hk)
              · exact ⟨ts', hmem⟩
            · rintro ⟨ts', hts'⟩
              exact ⟨ts', List.mem_cons_of_mem _ hts'⟩

/-- C5: after the index is built (without raising) from a knowledge base with
duplicate-free keys, an identifier appears in the index iff its entry's
concatenated content fields tokenize to at least one non-stopword term. -/
theorem claim_C5 (db : List (String × JVal)) (idx : List (String × List String))
    (hok : build_disease_index db = Except.ok idx)
    (hnd : (db.map Prod.fst).Nodup) (k : String) :
    (∃ ts, (k, ts) ∈ idx) ↔ ∃ v, alistGet db k = some v ∧ entry_terms v ≠ [] := by
  unfold build_disease_index at hok
  by_cases hdb : db.isEmpty
  · rw [if_pos hdb] at hok
    rw [List.isEmpty_iff] at hdb
    subst hdb
    injection hok with h'
    subst h'
    simp [alistGet]
  · rw [if_neg hdb] at hok
    exact buildAux_mem_iff hok hnd k

/-- A small well-formed knowledge base for the C5 witness. -/
def c5Db : List (String × JVal) :=
  [("dengue", JVal.obj [("en", JVal.obj [("what", JVal.str "mosquito borne viral infection")])]),
   ("empty_one", JVal.obj [("en", JVal.obj [("what", JVal.str "the is of to")])])]

/-- Witness for C5 at a concrete knowledge base: `dengue` yields terms and is
indexed, while `empty_one` (only stop words) is omitted. -/
theorem claim_C5_witness :
    build_disease_index c5Db =
      Except.ok [("dengue", ["mosquito", "borne", "viral", "infection"])] ∧
    ((c5Db.map Prod.fst).Nodup ∧
      ((∃ ts, ("dengue", ts) ∈ [("dengue", ["mosquito", "borne", "viral", "infection"])]) ↔
        ∃ v, alistGet c5Db "dengue" = some v ∧ entry_terms v ≠ [])) :=
  ⟨rfl, by decide,
    claim_C5 c5Db [("dengue", ["mosquito", "borne", "viral", "infection"])] rfl
      (by decide) "dengue"⟩

/-! ## Claim C6: the facility recommender -/

/-- The `matched_tags` accumulation as a function of which of the nine
keywords hit the disease key, in `keyword_tag_map` order. -/
def matchedOfVec (b1 b2 b3 b4 b5 b6 b7 b8 b9 : Bool) : List String :=
  let m0 : List String := []
  let m1 := if b1 then listUnion m0 ["emergency", "critical-care", "multispecialty"] else m0
  let m2 := if b2 then listUnion m1 ["emergency", "multispecialty"] else m1
  let m3 := if b3 then listUnion m2 ["emergency", "multispecialty"] else m2
  let m4 := if b4 then listUnion m3 ["emergency", "critical-care"] else m3
  let m5 := if b5 then listUnion m4 ["cardiac", "multispecialty"] else m4
  let m6 := if b6 then listUnion m5 ["cardiac"] else m5
  let m7 := if b7 then listUnion m6 ["nephrology", "multispecialty", "transplant"] else m6
  let m8 := if b8 then listUnion m7 ["oncology", "multispecialty"] else m7
  let m9 := if b9 then listUnion m8 ["maternity", "multispecialty"] else m8
  m9

theorem matched_tags_eq (key : String) :
    matched_tags key = matchedOfVec
      (containsStr (pyLower key) "fever") (containsStr (pyLower key) "dengue")
      (containsStr (pyLower key) "malaria") (containsStr (pyLower key) "covid")
      (containsStr (pyLower key) "cardiac") (containsStr (pyLower key) "heart")
      (containsStr (pyLower key) "kidney") (containsStr (pyLower key) "cancer")
      (containsStr (pyLower key) "pregnancy") := rfl

/-- The recommender pipeline before the `[:limit]` cut: score, stable-sort
descending, keep the non-negative scores, project the hospitals. -/
def hospPipeline (m : List String) : List Hospital :=
  ((sortScored (HOSPITALS_KOCHI.map (fun h => (score_hospital m h, h)))).filter
    (fun p => decide (0 ≤ p.1))).map (fun p => p.2)

/-- The C6 ordering property: non-increasing scores, and original registry
order among equal scores. -/
def c6Rel (m : List String) (a b : Hospital) : Prop :=
  score_hospital m b ≤ score_hospital m a ∧
    (score_hospital m a = score_hospital m b →
      HOSPITALS_KOCHI.indexOf a < HOSPITALS_KOCHI.indexOf b)

instance (m : List String) (a b : Hospital) : Decidable (c6Rel m a b) := by
  unfold c6Rel
  infer_instance

theorem hospPipeline_pairwise :
    ∀ b1 b2 b3 b4 b5 b6 b7 b8 b9 : Bool,
      List.Pairwise (c6Rel (matchedOfVec b1 b2 b3 b4 b5 b6 b7 b8 b9))
        (hospPipeline (matchedOfVec b1 b2 b3 b4 b5 b6 b7 b8 b9)) := by decide

theorem get_hospitals_eq {disease_key : String} (hk : ¬disease_key = "") (limit : Nat) :
    get_hospitals_for_disease disease_key limit =
      (hospPipeline (matched_tags disease_key)).take limit := by
  rw [get_hospitals_for_disease, if_neg hk]
  rfl

/-- C6: for every disease identifier and limit, the recommender returns at
most `limit` facilities, ordered by non-increasing score, with the original
registry order preserved among equal scores (so a lower-scored facility never
orders above a higher-scored one). -/
theorem claim_C6 (disease_key : String) (limit : Nat) :
    (get_hospitals_for_disease disease_key limit).length ≤ limit ∧
    List.Pairwise (fun a b =>
      score_hospital (matched_tags disease_key) b ≤
        score_hospital (matched_tags disease_key) a ∧
      (score_hospital (matched_tags disease_key) a =
          score_hospital (matched_tags disease_key) b →
        HOSPITALS_KOCHI.indexOf a < HOSPITALS_KOCHI.indexOf b))
      (get_hospitals_for_disease disease_key limit) := by
  by_cases hk : disease_key = ""
  · rw [get_hospitals_for_disease, if_pos hk]
    exact ⟨Nat.zero_le _, List.Pairwise.nil⟩
  · rw [get_hospitals_eq hk]
    constructor
    · rw [List.length_take]
      exact min_le_left _ _
    · have hp : List.Pairwise (c6Rel (matched_tags disease_key))
          (hospPipeline (matched_tags disease_key)) := by
        rw [matched_tags_eq]
        exact hospPipeline_pairwise _ _ _ _ _ _ _ _ _
      exact (hp.sublist (List.take_sublist _ _))

/-! ## Claim C2: thanks keywords pre-empt the knowledge base -/

theorem infix_dropWhile_of_nonspace {l : List Char}
    (hl : ∀ c ∈ l, isSpaceChar c = false) :
    ∀ a b : List Char, l <:+: List.dropWhile isSpaceChar (a ++ l ++ b) := by
  intro a
  induction a with
  | nil =>
    intro b
    cases hcl : l with
    | nil => exact List.nil_infix
    | cons c cl =>
      have hc : isSpaceChar c = false := hl c (by rw [hcl]; exact List.mem_cons_self _ _)
      rw [List.nil_append, List.cons_append, List.dropWhile_cons, hc]
      exact ⟨[], b, by simp⟩
  | cons x a ih =>
    intro b
    rw [List.cons_append, List.cons_append, List.dropWhile_cons]
    by_cases hx : isSpaceChar x
    · rw [hx]
      simpa using ih b
    · rw [Bool.not_eq_true] at hx
      rw [hx]
      exact ⟨x :: a, b, by simp⟩

theorem infix_pyStripData {l s : List Char}
    (hl : ∀ c ∈ l, isSpaceChar c = false) (h : l <:+: s) : l <:+: pyStripData s := by
  unfold pyStripData
  obtain ⟨a, b, rfl⟩ := h
  have h1 : l <:+: List.dropWhile isSpaceChar (a ++ l ++ b) :=
    infix_dropWhile_of_nonspace hl a b
  obtain ⟨a1, b1, hab1⟩ := h1
  have h2 : l.reverse <:+:
      List.dropWhile isSpaceChar (b1.reverse ++ l.reverse ++ a1.reverse) := by
    refine infix_dropWhile_of_nonspace ?_ _ _
    intro c hc
    exact hl c (List.mem_reverse.mp hc)
  rw [← hab1]
  rw [show (a1 ++ l ++ b1).reverse = b1.reverse ++ l.reverse ++ a1.reverse by
    simp [List.reverse_append, List.append_assoc]]
  rw [← List.reverse_infix]
  simpa using h2

theorem dropWhile_isSpace_map_lower (s : List Char) :
    List.dropWhile isSpaceChar (s.map lowerChar) =
      (List.dropWhile isSpaceChar s).map lowerChar := by
  rw [List.dropWhile_map]
  have hfun : (isSpaceChar ∘ lowerChar) = isSpaceChar := by
    funext c
    exact isSpaceChar_lowerChar c
  rw [hfun]

theorem pyStripData_map_lower (s : List Char) :
    pyStripData (s.map lowerChar) = (pyStripData s).map lowerChar := by
  unfold pyStripData
  rw [dropWhile_isSpace_map_lower, ← List.map_reverse, dropWhile_isSpace_map_lower,
    ← List.map_reverse]

theorem lower_strip_data (text : String) :
    (pyLower (pyStrip text)).data = pyStripData ((pyLower text).data) := by
  show (pyStripData text.data).map lowerChar = pyStripData (text.data.map lowerChar)
  exact (pyStripData_map_lower text.data).symm

theorem containsStr_lower_strip {text t0 : String}
    (hns : ∀ c ∈ t0.data, isSpaceChar c = false)
    (hct : containsStr (pyLower text) t0 = true) :
    containsStr (pyLower (pyStrip text)) t0 = true := by
  rw [containsStr, containsSub_iff] at hct ⊢
  rw [lower_strip_data]
  exact infix_pyStripData hns hct

/-- C2: a non-empty input whose lower-cased form contains "ty", "thx" or
"thank", and which neither equals nor starts (followed by a space) with a
greeting word, is answered with the Thanks intent — so such inputs never reach
the knowledge-base lookup even when they explicitly name a disease. -/
theorem claim_C2 (ctx : Ctx) (text lang : String)
    (hne : text ≠ "")
    (hthanks : containsStr (pyLower text) "ty" = true ∨
      containsStr (pyLower text) "thx" = true ∨
      containsStr (pyLower text) "thank" = true)
    (hgreet : ∀ g ∈ GREET_KEYWORDS_en, pyLower (pyStrip text) ≠ g ∧
      ¬(pyStartswith (pyLower (pyStrip text)) (g ++ " ") = true)) :
    process_message ctx text lang =
      Except.ok ⟨"thanks", PAnswer.text THANKS_ANSWER, none⟩ := by
  obtain ⟨t0, ht0mem3, ht0⟩ :
      ∃ t0 ∈ (["ty", "thx", "thank"] : List String),
        containsStr (pyLower text) t0 = true := by
    rcases hthanks with h | h | h
    · exact ⟨"ty", by decide, h⟩
    · exact ⟨"thx", by decide, h⟩
    · exact ⟨"thank", by decide, h⟩
  have ht0mem : t0 ∈ THANKS := by fin_cases ht0mem3 <;> decide
  have ht0ns : ∀ c ∈ t0.data, isSpaceChar c = false := by
    fin_cases ht0mem3 <;> decide
  have hct : containsStr (pyLower (pyStrip text)) t0 = true :=
    containsStr_lower_strip ht0ns ht0
  have hne' : ¬(pyStrip text = "") := by
    intro he
    rw [he] at hct
    rw [containsStr, containsSub_iff] at hct
    rw [show (pyLower "").data = ([] : List Char) from rfl] at hct
    have hnil : t0.data = [] := List.infix_nil.mp hct
    revert hnil
    fin_cases ht0mem3 <;> decide
  have hgreetany : (GREET_KEYWORDS_en.any fun g =>
      (pyLower (pyStrip text)) == g ||
        pyStartswith (pyLower (pyStrip text)) (g ++ " ")) = false := by
    rw [List.any_eq_false]
    intro g hg
    obtain ⟨h1, h2⟩ := hgreet g hg
    simp [h1, h2]
  have hthanksany : (THANKS.any fun t => containsStr (pyLower (pyStrip text)) t) = true :=
    List.any_eq_true.mpr ⟨t0, ht0mem, hct⟩
  simp only [process_message]
  rw [if_neg hne', if_neg (by rw [hgreetany]; simp), if_pos (by rw [hthanksany])]

/-- A knowledge base that does contain a `typhoid` entry with symptoms. -/
def c2Ctx : Ctx :=
  ⟨[("typhoid", JVal.obj [("en", JVal.obj
      [("symptoms", JVal.str "fever weakness abdominal pain")])])],
   [("typhoid", ["fever", "weakness", "abdominal", "pain"])],
   JVal.null, [], fun _ => none⟩

/-- Witness for C2: "typhoid symptoms" names a disease the knowledge base
knows, yet the "ty" substring routes it to Thanks. -/
theorem claim_C2_witness :
    ("typhoid symptoms" ≠ "" ∧ containsStr (pyLower "typhoid symptoms") "ty" = true) ∧
    process_message c2Ctx "typhoid symptoms" "en" =
      Except.ok ⟨"thanks", PAnswer.text THANKS_ANSWER, none⟩ :=
  ⟨⟨by decide, by decide⟩,
    claim_C2 c2Ctx "typhoid symptoms" "en" (by decide) (Or.inl (by decide)) (by decide)⟩

/-! ## Claim C9: tokenization is idempotent -/

theorem wordRunsAux_sound :
    ∀ (cs acc : List Char), (∀ c ∈ acc, isWordChar c = true) →
      ∀ r ∈ wordRunsAux cs acc, r ≠ [] ∧ ∀ c ∈ r, isWordChar c = true := by
  intro cs
  induction cs with
  | nil =>
    intro acc hacc r hr
    rw [wordRunsAux] at hr
    by_cases hae : acc.isEmpty
    · rw [if_pos hae] at hr
      simp at hr
    · rw [if_neg hae] at hr
      rw [List.mem_singleton] at hr
      subst hr
      refine ⟨by simpa [List.isEmpty_iff] using hae, ?_⟩
      intro c hc
      exact hacc c (List.mem_reverse.mp hc)
  | cons c0 cs ih =>
    intro acc hacc r hr
    rw [wordRunsAux] at hr
    by_cases hw : isWordChar c0
    · rw [if_pos hw] at hr
      refine ih (c0 :: acc) ?_ r hr
      intro c hc
      rcases List.mem_cons.mp hc with rfl | hc'
      · exact hw
      · exact hacc c hc'
    · rw [if_neg hw] at hr
      by_cases hae : acc.isEmpty
      · rw [if_pos hae] at hr
        exact ih [] (by simp) r hr
      · rw [if_neg hae] at hr
        rcases List.mem_cons.mp hr with rfl | hr'
        · refine ⟨by simpa [List.isEmpty_iff] using hae, ?_⟩
          intro c hc
          exact hacc c (List.mem_reverse.mp hc)
        · exact ih [] (by simp) r hr'

theorem wordRunsAux_chars :
    ∀ (cs acc : List Char), ∀ r ∈ wordRunsAux cs acc, ∀ c ∈ r, c ∈ cs ∨ c ∈ acc := by
  intro cs
  induction cs with
  | nil =>
    intro acc r hr c hc
    rw [wordRunsAux] at hr
    by_cases hae : acc.isEmpty
    · rw [if_pos hae] at hr
      simp at hr
    · rw [if_neg hae] at hr
      rw [List.mem_singleton] at hr
      subst hr
      exact Or.inr (List.mem_reverse.mp hc)
  | cons c0 cs ih =>
    intro acc r hr c hc
    rw [wordRunsAux] at hr
    by_cases hw : isWordChar c0
    · rw [if_pos hw] at hr
      rcases ih (c0 :: acc) r hr c hc with h | h
      · exact Or.inl (List.mem_cons_of_mem _ h)
      · rcases List.mem_cons.mp h with rfl | h'
        · exact Or.inl (List.mem_cons_self _ _)
        · exact Or.inr h'
    · rw [if_neg hw] at hr
      by_cases hae : acc.isEmpty
      · rw [if_pos hae] at hr
        rcases ih [] r hr c hc with h | h
        · exact Or.inl (List.mem_cons_of_mem _ h)
        · simp at h
      · rw [if_neg hae] at hr
        rcases List.mem_cons.mp hr with rfl | hr'
        · exact Or.inr (List.mem_reverse.mp hc)
        · rcases ih [] r hr' c hc with h | h
          · exact Or.inl (List.mem_cons_of_mem _ h)
          · simp at h

theorem wordRunsAux_word_run :
    ∀ (t : List Char), (∀ c ∈ t, isWordChar c = true) →
      ∀ (cs acc : List Char), wordRunsAux (t ++ cs) acc = wordRunsAux cs (t.reverse ++ acc) := by
  intro t
  induction t with
  | nil => intro _ cs acc; simp
  | cons c0 t ih =>
    intro ht cs acc
    rw [List.cons_append, wordRunsAux, if_pos (ht c0 (List.mem_cons_self _ _))]
    rw [ih (fun c hc => ht c (List.mem_cons_of_mem _ hc)) cs (c0 :: acc)]
    simp

theorem wordRunsAux_space {acc : List Char} (hacc : ¬acc = []) (cs : List Char) :
    wordRunsAux (' ' :: cs) acc = acc.reverse :: wordRunsAux cs [] := by
  rw [wordRunsAux]
  rw [if_neg (by decide)]
  rw [if_neg (by simpa [List.isEmpty_iff] using hacc)]

/-- `" ".join` at the character-list level. -/
def joinCharData : List (List Char) → List Char
  | [] => []
  | [t] => t
  | t :: t' :: ts => t ++ ' ' :: joinCharData (t' :: ts)

theorem pyJoin_space_data (parts : List String) :
    (pyJoin " " parts).data = joinCharData (parts.map String.data) := by
  match parts with
  | [] => rfl
  | [p] => rfl
  | p :: q :: ps =>
    show (p ++ " " ++ pyJoin " " (q :: ps)).data = _
    rw [String.data_append, String.data_append, pyJoin_space_data (q :: ps)]
    simp [joinCharData]

theorem runs_joinCharData :
    ∀ (ts : List (List Char)), (∀ t ∈ ts, t ≠ []) →
      (∀ t ∈ ts, ∀ c ∈ t, isWordChar c = true) →
      findallWords (joinCharData ts) = ts := by
  intro ts
  match ts with
  | [] => intro _ _; rfl
  | [t] =>
    intro hne hw
    show wordRunsAux t [] = [t]
    have := wordRunsAux_word_run t (hw t (List.mem_singleton.mpr rfl)) [] []
    rw [List.append_nil] at this
    rw [this, wordRunsAux]
    rw [if_neg (by simp [List.isEmpty_iff, hne t (List.mem_singleton.mpr rfl)])]
    simp
  | t :: t' :: ts' =>
    intro hne hw
    show wordRunsAux (t ++ ' ' :: joinCharData (t' :: ts')) [] = t :: t' :: ts'
    rw [wordRunsAux_word_run t (hw t (List.mem_cons_self _ _)) _ []]
    rw [List.append_nil]
    rw [wordRunsAux_space (by simp [hne t (List.mem_cons_self _ _)]) _]
    rw [List.reverse_reverse]
    have ih := runs_joinCharData (t' :: ts')
      (fun x hx => hne x (List.mem_cons_of_mem _ hx))
      (fun x hx => hw x (List.mem_cons_of_mem _ hx))
    rw [show wordRunsAux (joinCharData (t' :: ts')) [] = findallWords (joinCharData (t' :: ts')) from rfl]
    rw [ih]

theorem map_fixed {f : Char → Char} :
    ∀ {l : List Char}, (∀ c ∈ l, f c = c) → l.map f = l := by
  intro l
  induction l with
  | nil => intro _; rfl
  | cons c cs ih =>
    intro h
    rw [List.map_cons, h c (List.mem_cons_self _ _), ih (fun x hx => h x (List.mem_cons_of_mem _ hx))]

theorem map_lower_joinCharData :
    ∀ (ts : List (List Char)), (∀ r ∈ ts, ∀ c ∈ r, lowerChar c = c) →
      (joinCharData ts).map lowerChar = joinCharData ts := by
  intro ts
  match ts with
  | [] => intro _; rfl
  | [t] =>
    intro hfix
    exact map_fixed (hfix t (List.mem_singleton.mpr rfl))
  | t :: t' :: ts' =>
    intro hfix
    show (t ++ ' ' :: joinCharData (t' :: ts')).map lowerChar = _
    rw [List.map_append, List.map_cons]
    rw [map_fixed (hfix t (List.mem_cons_self _ _))]
    rw [show lowerChar ' ' = ' ' from rfl]
    rw [map_lower_joinCharData (t' :: ts') (fun r hr => hfix r (List.mem_cons_of_mem _ hr))]
    rfl

theorem data_mk (l : List Char) : (String.mk l).data = l := rfl

/-- `_tokenize` as a filter of the word runs followed by the string
projection. -/
theorem tokenize_via_runs (s : String) :
    _tokenize s = ((findallWords ((pyLower s).data)).filter
      (fun r => !(STOP_WORDS.contains (String.mk r)))).map String.mk := by
  rw [_tokenize, List.filter_map]
  rfl

/-- Re-tokenizing the space-joined token list reproduces the token list. -/
theorem tokenize_join_tokenize (t : String) :
    _tokenize (pyJoin " " (_tokenize t)) = _tokenize t := by
  have hruns_ne := wordRunsAux_sound ((pyLower t).data) [] (by simp)
  have hruns_chars := wordRunsAux_chars ((pyLower t).data) []
  set fruns := (findallWords ((pyLower t).data)).filter
    (fun r => !(STOP_WORDS.contains (String.mk r))) with hfruns
  have hfm : _tokenize t = List.map String.mk fruns := tokenize_via_runs t
  have hmem : ∀ r ∈ fruns, r ∈ findallWords ((pyLower t).data) := by
    intro r hr
    exact List.mem_of_mem_filter hr
  have hne : ∀ r ∈ fruns, r ≠ [] := fun r hr => (hruns_ne r (hmem r hr)).1
  have hw : ∀ r ∈ fruns, ∀ c ∈ r, isWordChar c = true :=
    fun r hr => (hruns_ne r (hmem r hr)).2
  have hfix : ∀ r ∈ fruns, ∀ c ∈ r, lowerChar c = c := by
    intro r hr c hc
    rcases hruns_chars r (hmem r hr) c hc with h | h
    · rw [show (pyLower t).data = t.data.map lowerChar from rfl] at h
      obtain ⟨c0, _, rfl⟩ := List.mem_map.mp h
      exact lowerChar_idem c0
    · simp at h
  have hcomp : (String.data ∘ String.mk) = id := by
    funext l
    rfl
  have hdata : (pyJoin " " (_tokenize t)).data = joinCharData fruns := by
    rw [pyJoin_space_data, hfm, List.map_map, hcomp, List.map_id]
  rw [tokenize_via_runs (pyJoin " " (_tokenize t))]
  rw [show (pyLower (pyJoin " " (_tokenize t))).data =
      ((pyJoin " " (_tokenize t)).data).map lowerChar from rfl]
  rw [hdata]
  rw [map_lower_joinCharData fruns hfix]
  rw [runs_joinCharData fruns hne hw]
  rw [hfm]
  congr 1
  rw [hfruns, List.filter_filter]
  congr 1
  funext r
  rw [Bool.and_self]

/-- C9: tokenizing the empty string yields the empty list, and tokenization is
idempotent: tokenizing the space-joined concatenation of `_tokenize text`
yields the same term set as `_tokenize text`. -/
theorem claim_C9 :
    _tokenize "" = [] ∧
    ∀ (t w : String), (w ∈ _tokenize (pyJoin " " (_tokenize t)) ↔ w ∈ _tokenize t) :=
  ⟨rfl, fun t w => by rw [tokenize_join_tokenize]⟩

/-! ## Claim C7: "dengue symptoms" end to end -/

theorem find_explicit_alistGet {db : List (String × JVal)} {q k : String} {v : JVal}
    (h : find_explicit db q = some (k, v)) : alistGet db k = some v := by
  induction db with
  | nil => simp [find_explicit] at h
  | cons p rest ih =>
    obtain ⟨k0, v0⟩ := p
    have hk : explicit_variants_match k q = true := by
      have := List.find?_some h
      simpa using this
    by_cases hp : explicit_variants_match k0 q = true
    · rw [find_explicit, List.find?_cons_of_pos _ (by simpa using hp)] at h
      injection h with h'
      injection h' with h1 h2
      subst h1
      subst h2
      exact alistGet_cons_self _ _ _
    · rw [find_explicit, List.find?_cons_of_neg _ (by simpa using hp)] at h
      have hne : k ≠ k0 := by
        intro he
        subst he
        exact hp hk
      rw [alistGet_cons_ne hne]
      exact ih h

theorem search_db_dengue (db : List (String × JVal)) (docs : List (String × List String))
    (fs gs : List (String × JVal)) (s : String)
    (hfind : find_explicit db "dengue symptoms" = some ("dengue", JVal.obj fs))
    (hen : alistGet fs "en" = some (JVal.obj gs))
    (hsym : alistGet gs "symptoms" = some (JVal.str s)) :
    search_db db docs "dengue symptoms" "en" =
      Except.ok (some ("💡 *" ++ diseaseTitle "dengue" ++ " – " ++ "Symptoms" ++ "*\n" ++ s)) := by
  have hdbne : db.isEmpty = false := by
    cases hd : db with
    | nil => rw [hd] at hfind; simp [find_explicit] at hfind
    | cons a l => rfl
  have hresolve : resolve_disease db docs "dengue symptoms" "dengue symptoms" =
      some ("dengue", true) := by
    unfold resolve_disease
    rw [hfind]
  have hget : alistGet db "dengue" = some (JVal.obj fs) := find_explicit_alistGet hfind
  have hgs_ne : ¬gs = [] := by
    intro h
    rw [h] at hsym
    simp [alistGet] at hsym
  have htruthy : (JVal.obj gs).truthy = true := by
    simp [JVal.truthy, List.isEmpty_iff, hgs_ne]
  simp only [search_db]
  rw [if_neg (by simp [hdbne])]
  rw [show pyStrip (pyLower "dengue symptoms") = "dengue symptoms" from rfl]
  rw [hresolve]
  dsimp only
  rw [hget]
  dsimp only
  rw [show pyGet (JVal.obj fs) "en" = Except.ok (alistGet fs "en") from rfl]
  rw [hen]
  dsimp only
  rw [htruthy]
  rw [if_neg (by decide)]
  rw [if_neg (by decide)]
  rw [show pickCategory "dengue symptoms" = "symptoms" from by decide]
  rw [hsym]
  rw [show pyIsNone (some (JVal.str s)) = false from rfl]
  rw [if_neg (by decide)]
  dsimp only
  rw [show ((title_map.find? (fun p => p.1 == "symptoms")).map (fun p => p.2)).getD
      (pyCapitalize "symptoms") = "Symptoms" from rfl]
  rfl

/-- C7: on input "dengue symptoms", when the knowledge base resolves the
explicit key `dengue` to an entry whose `en` block has a string `symptoms`
field, `process_message` returns the KnowledgeBaseAnswer (type "db") whose
answer contains that field's content and whose attached facility list has at
least one facility tagged `emergency` or `multispecialty`. -/
theorem claim_C7 (ctx : Ctx) (lang : String) (fs gs : List (String × JVal)) (s : String)
    (hfind : find_explicit ctx.db "dengue symptoms" = some ("dengue", JVal.obj fs))
    (hen : alistGet fs "en" = some (JVal.obj gs))
    (hsym : alistGet gs "symptoms" = some (JVal.str s)) :
    ∃ (a : String) (hs : List Hospital),
      process_message ctx "dengue symptoms" lang =
        Except.ok ⟨"db", PAnswer.payload a (some hs), none⟩ ∧
      s.data <:+: a.data ∧
      ∃ h ∈ hs, ("emergency" ∈ h.tags ∨ "multispecialty" ∈ h.tags) := by
  have hsearch := search_db_dengue ctx.db ctx.docs fs gs s hfind hen hsym
  refine ⟨("💡 *" ++ diseaseTitle "dengue" ++ " – " ++ "Symptoms" ++ "*\n" ++ s) ++
      HOSPITAL_BLOCK_HEADER ++
      pyJoin "\n" ((get_hospitals_for_disease "dengue" 3).map hospLine),
    get_hospitals_for_disease "dengue" 3, ?_, ?_, ?_⟩
  · simp only [process_message]
    rw [show pyStrip "dengue symptoms" = "dengue symptoms" from rfl]
    rw [show pyLower "dengue symptoms" = "dengue symptoms" from rfl]
    rw [if_neg (by decide)]
    rw [if_neg (by decide)]
    rw [if_neg (by decide)]
    rw [hsearch]
    dsimp only
    rw [show (ctx.db.find? fun p => explicit_variants_match p.1 "dengue symptoms") =
        find_explicit ctx.db "dengue symptoms" from rfl]
    rw [hfind]
    dsimp only
    rw [if_neg (by decide)]
  · refine ⟨("💡 *" ++ diseaseTitle "dengue" ++ " – " ++ "Symptoms" ++ "*\n").data,
      (HOSPITAL_BLOCK_HEADER ++
        pyJoin "\n" ((get_hospitals_for_disease "dengue" 3).map hospLine)).data, ?_⟩
    simp [String.data_append, List.append_assoc]
  · decide

def c7Gs : List (String × JVal) :=
  [("symptoms", JVal.str "high fever severe headache joint pain")]

def c7Fs : List (String × JVal) := [("en", JVal.obj c7Gs)]

/-- A context whose knowledge base holds a dengue entry with a non-empty
symptoms field. -/
def c7Ctx : Ctx :=
  ⟨[("dengue", JVal.obj c7Fs)],
   [("dengue", ["high", "fever", "severe", "headache", "joint", "pain"])],
   JVal.null, [], fun _ => none⟩

/-- Witness for C7 at the concrete knowledge base `c7Ctx`. -/
theorem claim_C7_witness :
    (find_explicit c7Ctx.db "dengue symptoms" = some ("dengue", JVal.obj c7Fs) ∧
     alistGet c7Fs "en" = some (JVal.obj c7Gs) ∧
     alistGet c7Gs "symptoms" = some (JVal.str "high fever severe headache joint pain")) ∧
    ∃ (a : String) (hs : List Hospital),
      process_message c7Ctx "dengue symptoms" "en" =
        Except.ok ⟨"db", PAnswer.payload a (some hs), none⟩ ∧
      ("high fever severe headache joint pain" : String).data <:+: a.data ∧
      ∃ h ∈ hs, ("emergency" ∈ h.tags ∨ "multispecialty" ∈ h.tags) :=
  ⟨⟨rfl, rfl, rfl⟩,
    claim_C7 c7Ctx "en" c7Fs c7Gs "high fever severe headache joint pain" rfl rfl rfl⟩
